import Mathlib

/-!
# Verification of `src/engines/scraper.go`

A shallow embedding of the scraper command (`main`, `scrapeTarget` and the three
strategy functions `scrapeSocialPlatforms`, `scrapePublicRecords`, `scrapeForums`)
followed by theorems about it.

Modelling conventions

* A Go `string` is a Lean `String` (text in valid UTF-8); the program only
  compares strings with `==` and concatenates them with `+`.
* A Go `interface{}` stored in a payload is a `Value`: the program stores
  strings, ints and `[]string` slices only.
* A Go `map[string]interface{}` is a `GoMap`: either the nil map or a list of
  entries with pairwise distinct keys, in the order of the composite literal
  (or of insertion).  Equality of `GoMap`s is finer than equality of Go maps
  (it also fixes the entry order), so an equation between `GoMap`s entails
  the equation between the maps they stand for.
* Operations that panic in Go (assignment to an entry of a nil map) return
  `Except.error`; everything else is total.
* The state of the process is a `World`: the heap, on which clients and maps
  are allocated, and the strategy calls made so far.  `scrapeTargetIn` is the
  source function `scrapeTarget` run in a given state; `scrapeTarget` is the
  map it returns when run in the initial state, which is where `main` calls it.
* `time.Now()` is an argument of `main`; standard output is the returned list
  of `Output` records.
-/

deriving instance DecidableEq for Except

namespace Scraper

/-! ## Data model -/

/-- Dynamic values held in a payload (`interface{}` in the source). -/
inductive Value where
  | str (s : String)
  | int (n : Int)
  | strs (xs : List String)
  deriving DecidableEq, Repr

/-- Go `map[string]interface{}`: the nil map, or a finite list of entries. -/
inductive GoMap where
  | nil
  | mk (entries : List (String × Value))
  deriving DecidableEq, Repr

namespace GoMap

/-- Entries of a map; the nil map has none. -/
def entries : GoMap → List (String × Value)
  | nil => []
  | mk es => es

/-- Go `make(map[string]interface{})`: a fresh, empty, non-nil map. -/
def make : GoMap := mk []

/-- Go `len(m)`. -/
def len (m : GoMap) : Nat := m.entries.length

/-- Keys of the map, in entry order. -/
def keys (m : GoMap) : List String := m.entries.map Prod.fst

/-- Go `v, ok := m[k]`: `some v` when the key is present, `none` otherwise. -/
def get (m : GoMap) (k : String) : Option Value :=
  (m.entries.find? (fun e => e.1 == k)).map Prod.snd

/-- Go `_, ok := m[k]`. -/
def has (m : GoMap) (k : String) : Bool := (m.get k).isSome

/-- Replace the value of `k` in an entry list, or append a new entry. -/
def setEntries (k : String) (v : Value) : List (String × Value) → List (String × Value)
  | [] => [(k, v)]
  | e :: es => if e.1 = k then (k, v) :: es else e :: setEntries k v es

/-- Go `m[k] = v`; assignment to an entry of the nil map panics. -/
def set (m : GoMap) (k : String) (v : Value) : Except String GoMap :=
  match m with
  | nil => .error "assignment to entry in nil map"
  | mk es => .ok (mk (setEntries k v es))

end GoMap

/-- Go `time.Duration`: a count of nanoseconds. -/
abbrev Duration := Int

/-- Go `time.Second`. -/
def Second : Duration := 1000000000

/-- The part of `http.Client` the program sets: its `Timeout` field. -/
structure Client where
  Timeout : Duration
  deriving DecidableEq, Repr

/-- The struct `ScrapingResult` of the source. -/
structure ScrapingResult where
  Source : String
  Data : GoMap
  Timestamp : String
  deriving DecidableEq, Repr

/-! ## Strategies -/

/-- Source function `scrapeSocialPlatforms`. -/
def scrapeSocialPlatforms (_client : Client) (target : String) : GoMap :=
  .mk [ ("platform", .str "multiple"),
        ("profiles_found", .int 3),
        ("usernames", .strs [target, target ++ "123", target ++ "_official"]),
        ("activity_level", .str "moderate") ]

/-- Source function `scrapePublicRecords`. -/
def scrapePublicRecords (_client : Client) (_target : String) : GoMap :=
  .mk [ ("records_found", .int 2),
        ("locations", .strs ["City A", "City B"]),
        ("associated_entities", .strs ["Entity 1", "Entity 2"]) ]

/-- Source function `scrapeForums`. -/
def scrapeForums (_client : Client) (_target : String) : GoMap :=
  .mk [ ("forums_found", .int 5),
        ("posts", .int 47),
        ("topics", .strs ["tech", "gaming", "crypto"]) ]

/-! ## Process state -/

/-- An object on the heap: an `http.Client`, or a map. -/
inductive Obj where
  | client (c : Client)
  | map (m : GoMap)
  deriving DecidableEq, Repr

/-- Whether a heap object is a client. -/
def Obj.isClient : Obj → Bool
  | .client _ => true
  | .map _ => false

/-- A call of a strategy function: the name of the function, the client
pointer and the target it is given. -/
structure Call where
  name : String
  client : Nat
  target : String
  deriving DecidableEq, Repr

/-- State of the running process: the heap, an address being a position in it,
and the strategy calls made so far. -/
structure World where
  heap : List Obj
  calls : List Call
  deriving DecidableEq, Repr

namespace World

/-- State of the process when `main` starts. -/
def init : World := { heap := [], calls := [] }

/-- Allocation: the object is stored at the next free address, which is
returned. -/
def alloc (w : World) (o : Obj) : Nat × World :=
  (w.heap.length, { w with heap := w.heap ++ [o] })

/-- The client a pointer refers to. -/
def clientAt (w : World) (p : Nat) : Option Client :=
  match w.heap[p]? with
  | some (.client c) => some c
  | _ => none

/-- The map a map reference refers to. -/
def mapAt (w : World) (p : Nat) : Option GoMap :=
  match w.heap[p]? with
  | some (.map m) => some m
  | _ => none

/-- Go `m[k] = v` for the map at address `p`: the map is updated in place. -/
def assign (w : World) (p : Nat) (k : String) (v : Value) : Except String World :=
  match w.mapAt p with
  | none => .error "invalid memory address or nil pointer dereference"
  | some m =>
    match m.set k v with
    | .error e => .error e
    | .ok m2 => .ok { w with heap := w.heap.set p (.map m2) }

/-- A call `f(client, target)` of a strategy function: the call is recorded,
`f` runs on the client the pointer refers to, and the map it builds is
allocated; its address is returned. -/
def call (w : World) (name : String) (f : Client → String → GoMap) (client : Nat)
    (target : String) : Except String (Nat × World) :=
  match w.clientAt client with
  | none => .error "invalid memory address or nil pointer dereference"
  | some c =>
    let w := { w with calls := w.calls ++ [Call.mk name client target] }
    .ok (w.alloc (.map (f c target)))

/-- The map a run returned, read from the heap it left. -/
def returned : Except String (Nat × World) → Except String GoMap
  | .error e => .error e
  | .ok (p, w) =>
    match w.mapAt p with
    | none => .error "invalid memory address or nil pointer dereference"
    | some m => .ok m

end World

/-! ## Dispatch -/

/-- The client `scrapeTarget` constructs: `&http.Client{Timeout: 30 * time.Second}`. -/
def newClient : Client := { Timeout := 30 * Second }

/-- Source function `scrapeTarget`, run in the process state `w`: it returns
the address of the map it returns and the state it leaves.  The `switch`
compares `source` with each case constant in order using string equality. -/
def scrapeTargetIn (w : World) (target source : String) : Except String (Nat × World) :=
  let (client, w) := w.alloc (.client newClient)
  let (data, w) := w.alloc (.map GoMap.make)
  if source = "social_platforms" then
    w.call "scrapeSocialPlatforms" scrapeSocialPlatforms client target
  else if source = "public_records" then
    w.call "scrapePublicRecords" scrapePublicRecords client target
  else if source = "forums" then
    w.call "scrapeForums" scrapeForums client target
  else
    match w.assign data "error" (.str "Unknown source") with
    | .error e => .error e
    | .ok w => .ok (data, w)

/-- Source function `scrapeTarget` as `main` calls it: the map returned by the
run in the initial state of the process. -/
def scrapeTarget (target source : String) : Except String GoMap :=
  World.returned (scrapeTargetIn World.init target source)

/-! ## Time stamps -/

/-- A Go `time.Time` as `Format` reads it: the civil date and clock time in the
time's location, and that location's offset in seconds east of UTC. -/
structure Time where
  Year : Int
  Month : Nat
  Day : Nat
  Hour : Nat
  Minute : Nat
  Second : Nat
  Offset : Int
  deriving DecidableEq, Repr

/-- Go `appendInt` of package `time`: decimal digits of `x`, zero-padded on the
left to `width` digits, after a minus sign when `x` is negative. -/
def appendInt (x : Int) (width : Nat) : String :=
  let digits := Nat.repr x.natAbs
  let padded := String.mk (List.replicate (width - digits.length) '0') ++ digits
  if x < 0 then "-" ++ padded else padded

/-- The `Z07:00` element of a layout: `Z` for offset zero, otherwise the sign
and the offset as hours and minutes. -/
def formatZone (offset : Int) : String :=
  if offset = 0 then "Z"
  else
    let zone := Int.tdiv offset 60
    let sign := if zone < 0 then "-" else "+"
    let zone := zone.natAbs
    sign ++ appendInt (zone / 60) 2 ++ ":" ++ appendInt (zone % 60) 2

/-- Go `t.Format(time.RFC3339)`, layout `2006-01-02T15:04:05Z07:00`. -/
def Time.FormatRFC3339 (t : Time) : String :=
  appendInt t.Year 4 ++ "-" ++ appendInt t.Month 2 ++ "-" ++ appendInt t.Day 2 ++ "T"
    ++ appendInt t.Hour 2 ++ ":" ++ appendInt t.Minute 2 ++ ":" ++ appendInt t.Second 2
    ++ formatZone t.Offset

/-! ## Entry point -/

/-- A value of a top-level field of the marshalled envelope. -/
inductive JSONField where
  | str (s : String)
  | obj (m : GoMap)
  deriving DecidableEq, Repr

/-- Top-level members of the JSON object `json.Marshal` writes for a
`ScrapingResult`, named by the struct tags, in declaration order. -/
def ScrapingResult.jsonFields (r : ScrapingResult) : List (String × JSONField) :=
  [("source", .str r.Source), ("data", .obj r.Data), ("timestamp", .str r.Timestamp)]

/-- One `fmt.Println` call: a line of plain text, or the marshalled envelope. -/
inductive Output where
  | text (s : String)
  | json (r : ScrapingResult)
  deriving DecidableEq, Repr

/-- Source function `main`: `args` is `os.Args` (program name first), `now` is
what `time.Now()` returns; the result is what is printed to standard output. -/
def main (args : List String) (now : Time) : Except String (List Output) :=
  if h : args.length < 3 then
    .ok [Output.text "Usage: scraper <target> <source>"]
  else do
    let target := args[1]
    let source := args[2]
    let data ← scrapeTarget target source
    let result : ScrapingResult :=
      { Source := source, Data := data, Timestamp := now.FormatRFC3339 }
    .ok [Output.json result]

/-! ## Vocabulary of the specification -/

/-- The case constants of the `switch` in `scrapeTarget`, in source order: the
registered categories. -/
def registered : List String := ["social_platforms", "public_records", "forums"]

/-- Keys the specification requires in the payload of each registered category. -/
def requiredKeys (category : String) : List String :=
  if category = "social_platforms" then ["profiles_found", "usernames", "activity_level"]
  else if category = "public_records" then ["records_found", "locations", "associated_entities"]
  else if category = "forums" then ["forums_found", "posts", "topics"]
  else []

/-- The payload for an unknown category: the single entry `error`. -/
def unknownSource : GoMap := .mk [("error", .str "Unknown source")]

/-- The state the process is in after a sequence of calls of `scrapeTarget`,
each given as its target and its source, made one after the other from `w`. -/
def runCalls (w : World) : List (String × String) → Except String World
  | [] => .ok w
  | c :: rest =>
    match scrapeTargetIn w c.1 c.2 with
    | .error e => .error e
    | .ok (_, v) => runCalls v rest

/-- The decimal digit, as a character, of the units of `n`. -/
def digit (n : Nat) : Char := Char.ofNat (48 + n % 10)

/-- A two-digit field (RFC 3339 `2DIGIT`). -/
def twoDigits (n : Nat) : List Char := [digit (n / 10), digit n]

/-- A four-digit field (RFC 3339 `4DIGIT`). -/
def fourDigits (n : Nat) : List Char :=
  [digit (n / 1000), digit (n / 100), digit (n / 10), digit n]

/-- RFC 3339 `time-offset` of an offset in seconds east of UTC: `Z` for UTC,
otherwise the sign, the hours and the minutes. -/
def rfc3339Offset (offset : Int) : List Char :=
  if offset = 0 then ['Z']
  else
    (if offset < 0 then '-' else '+') ::
      (twoDigits (offset.natAbs / 3600) ++ ':' :: twoDigits (offset.natAbs / 60 % 60))

/-- RFC 3339 `date-time` of a time, without fraction of a second: year, month
and day joined by `-`, then `T`, then hour, minute and second joined by `:`,
then the offset. -/
def rfc3339 (t : Time) : String :=
  String.mk (fourDigits t.Year.toNat ++ '-' :: twoDigits t.Month ++ '-' :: twoDigits t.Day
    ++ 'T' :: twoDigits t.Hour ++ ':' :: twoDigits t.Minute ++ ':' :: twoDigits t.Second
    ++ rfc3339Offset t.Offset)

/-- A time RFC 3339 can express: a year of four digits, calendar and clock
fields in their ranges, and an offset of whole minutes, less than a day. -/
def Time.valid (t : Time) : Prop :=
  0 ≤ t.Year ∧ t.Year ≤ 9999 ∧ 1 ≤ t.Month ∧ t.Month ≤ 12 ∧ 1 ≤ t.Day ∧ t.Day ≤ 31 ∧
  t.Hour ≤ 23 ∧ t.Minute ≤ 59 ∧ t.Second ≤ 60 ∧
  t.Offset % 60 = 0 ∧ t.Offset.natAbs < 86400

/-- Two strings that differ at most in the case of their ASCII letters. -/
def sameIgnoringCase (a b : String) : Prop :=
  a.data.map Char.toLower = b.data.map Char.toLower

/-- The string `c` is the string `k` with characters added (anywhere). -/
def withExtraCharacters (c k : String) : Prop := k.data.Sublist c.data

/-! ## Instrumented semantics

The body of `scrapeTarget` with the client it builds taken as an argument, and
`main` recording what it does besides computing its result. -/

/-- The body of `scrapeTarget` with the client as a parameter instead of the
one built in its first statement. -/
def scrapeTargetWith (client : Client) (target source : String) : Except String GoMap :=
  let data := GoMap.make
  if source = "social_platforms" then
    .ok (scrapeSocialPlatforms client target)
  else if source = "public_records" then
    .ok (scrapePublicRecords client target)
  else if source = "forums" then
    .ok (scrapeForums client target)
  else
    data.set "error" (.str "Unknown source")

/-- Steps of `main`: a call of `scrapeTarget`, or a `fmt.Println`. -/
inductive MainEvent where
  | call (target source : String)
  | print (o : Output)
  deriving DecidableEq, Repr

/-- Whether a step of `main` is a call of `scrapeTarget`. -/
def MainEvent.isCall : MainEvent → Bool
  | .call _ _ => true
  | .print _ => false

/-- What a step of `main` prints, if anything. -/
def MainEvent.printed : MainEvent → Option Output
  | .call _ _ => none
  | .print o => some o

/-- Whether a printed record is an envelope. -/
def Output.isEnvelope : Output → Bool
  | .text _ => false
  | .json _ => true

/-- Source function `main`, returning its calls of `scrapeTarget` and its
prints in execution order. -/
def mainTraced (args : List String) (now : Time) : Except String (List MainEvent) :=
  if h : args.length < 3 then
    .ok [MainEvent.print (Output.text "Usage: scraper <target> <source>")]
  else do
    let target := args[1]
    let source := args[2]
    let data ← scrapeTarget target source
    let result : ScrapingResult :=
      { Source := source, Data := data, Timestamp := now.FormatRFC3339 }
    .ok [MainEvent.call target source, MainEvent.print (Output.json result)]

/-- The usage line of `main`. -/
def usage : String := "Usage: scraper <target> <source>"

/-- First entry of the `usernames` sequence of a payload. -/
def firstUsername (p : GoMap) : Option String :=
  match p.get "usernames" with
  | some (.strs (u :: _)) => some u
  | _ => none

/-! ## Lemmas on dispatch -/

theorem getElem?_append_add (h l : List Obj) (k : Nat) :
    (h ++ l)[h.length + k]? = l[k]? := by
  rw [List.getElem?_append_right (by omega)]
  congr 1
  omega

theorem World.clientAt_append_one (h : List Obj) (cs : List Call) (c : Client)
    (rest : List Obj) :
    World.clientAt { heap := h ++ Obj.client c :: rest, calls := cs } h.length = some c := by
  have e := getElem?_append_add h (Obj.client c :: rest) 0
  simp only [Nat.add_zero] at e
  simp [World.clientAt, e]

theorem World.mapAt_append_two (h : List Obj) (cs : List Call) (o : Obj) (m : GoMap)
    (rest : List Obj) :
    World.mapAt { heap := h ++ o :: Obj.map m :: rest, calls := cs } (h.length + 1)
      = some m := by
  simp [World.mapAt, getElem?_append_add h (o :: Obj.map m :: rest) 1]

theorem World.mapAt_append_three (h : List Obj) (cs : List Call) (o1 o2 : Obj) (m : GoMap)
    (rest : List Obj) :
    World.mapAt { heap := h ++ o1 :: o2 :: Obj.map m :: rest, calls := cs } (h.length + 2)
      = some m := by
  simp [World.mapAt, getElem?_append_add h (o1 :: o2 :: Obj.map m :: rest) 2]

theorem scrapeTargetIn_social (w : World) (target : String) :
    scrapeTargetIn w target "social_platforms"
      = .ok (w.heap.length + 2,
          { heap := w.heap ++ [Obj.client newClient, Obj.map GoMap.make,
              Obj.map (scrapeSocialPlatforms newClient target)],
            calls := w.calls ++ [⟨"scrapeSocialPlatforms", w.heap.length, target⟩] }) := by
  simp [scrapeTargetIn, World.alloc, World.call, World.clientAt_append_one]

theorem scrapeTargetIn_records (w : World) (target : String) :
    scrapeTargetIn w target "public_records"
      = .ok (w.heap.length + 2,
          { heap := w.heap ++ [Obj.client newClient, Obj.map GoMap.make,
              Obj.map (scrapePublicRecords newClient target)],
            calls := w.calls ++ [⟨"scrapePublicRecords", w.heap.length, target⟩] }) := by
  simp [scrapeTargetIn, World.alloc, World.call, World.clientAt_append_one]

theorem scrapeTargetIn_forums (w : World) (target : String) :
    scrapeTargetIn w target "forums"
      = .ok (w.heap.length + 2,
          { heap := w.heap ++ [Obj.client newClient, Obj.map GoMap.make,
              Obj.map (scrapeForums newClient target)],
            calls := w.calls ++ [⟨"scrapeForums", w.heap.length, target⟩] }) := by
  simp [scrapeTargetIn, World.alloc, World.call, World.clientAt_append_one]

theorem scrapeTargetIn_default (w : World) (target source : String)
    (h : source ∉ registered) :
    scrapeTargetIn w target source
      = .ok (w.heap.length + 1,
          { heap := w.heap ++ [Obj.client newClient, Obj.map unknownSource],
            calls := w.calls }) := by
  simp only [registered, List.mem_cons, List.mem_singleton, List.mem_nil_iff, or_false,
    not_or] at h
  obtain ⟨h1, h2, h3⟩ := h
  simp [scrapeTargetIn, World.alloc, World.assign, World.mapAt_append_two, h1, h2, h3,
    GoMap.make, GoMap.set, GoMap.setEntries, unknownSource]

theorem scrapeTarget_social (target : String) :
    scrapeTarget target "social_platforms" = .ok (scrapeSocialPlatforms newClient target) := by
  rw [scrapeTarget, scrapeTargetIn_social]
  simp [World.returned, World.init, World.mapAt]

theorem scrapeTarget_records (target : String) :
    scrapeTarget target "public_records" = .ok (scrapePublicRecords newClient target) := by
  rw [scrapeTarget, scrapeTargetIn_records]
  simp [World.returned, World.init, World.mapAt]

theorem scrapeTarget_forums (target : String) :
    scrapeTarget target "forums" = .ok (scrapeForums newClient target) := by
  rw [scrapeTarget, scrapeTargetIn_forums]
  simp [World.returned, World.init, World.mapAt]

theorem scrapeTarget_default (target source : String) (h : source ∉ registered) :
    scrapeTarget target source = .ok unknownSource := by
  rw [scrapeTarget, scrapeTargetIn_default _ _ _ h]
  simp [World.returned, World.init, World.mapAt]

theorem mem_registered (source : String) :
    source ∈ registered ↔
      source = "social_platforms" ∨ source = "public_records" ∨ source = "forums" := by
  simp [registered]

theorem unknownSource_get (k : String) :
    unknownSource.get k = if k = "error" then some (.str "Unknown source") else none := by
  by_cases h : k = "error"
  · subst h; rfl
  · have h2 : ¬ ("error" = k) := fun e => h e.symm
    simp [unknownSource, GoMap.get, GoMap.entries, h, h2]

theorem scrapeTarget_ok (target source : String) :
    ∃ p, scrapeTarget target source = .ok p ∧ p ≠ GoMap.nil ∧ 0 < p.len ∧
      (p.has "error" = true ↔ source ∉ registered) := by
  by_cases h : source ∈ registered
  · have h0 := h
    rw [mem_registered] at h
    rcases h with h | h | h <;> subst h
    · exact ⟨_, scrapeTarget_social target, by simp [scrapeSocialPlatforms],
        by simp [GoMap.len, GoMap.entries, scrapeSocialPlatforms],
        by simp [h0]; rfl⟩
    · exact ⟨_, scrapeTarget_records target, by simp [scrapePublicRecords],
        by simp [GoMap.len, GoMap.entries, scrapePublicRecords],
        by simp [h0]; rfl⟩
    · exact ⟨_, scrapeTarget_forums target, by simp [scrapeForums],
        by simp [GoMap.len, GoMap.entries, scrapeForums],
        by simp [h0]; rfl⟩
  · exact ⟨_, scrapeTarget_default target source h, by simp [unknownSource], by decide,
      by simp [h]; rfl⟩

theorem main_of_ok (prog target source : String) (rest : List String) (now : Time)
    (p : GoMap) (h : scrapeTarget target source = .ok p) :
    main (prog :: target :: source :: rest) now
      = .ok [Output.json { Source := source, Data := p, Timestamp := now.FormatRFC3339 }] := by
  simp [main, h]
  rfl

theorem registered_ne_variant (category key : String) (hk : key ∈ registered)
    (hne : category ≠ key)
    (hv : sameIgnoringCase category key ∨ withExtraCharacters category key) :
    category ∉ registered := by
  intro hc
  rw [mem_registered] at hk hc
  unfold sameIgnoringCase withExtraCharacters at hv
  rcases hk with hk | hk | hk <;> rcases hc with hc | hc | hc <;> subst hk <;> subst hc <;>
    first
    | exact hne rfl
    | (rcases hv with hv | hv
       · exact absurd hv (by decide)
       · exact absurd hv (by decide))

theorem scrapeTargetWith_eq (client : Client) (target source : String) :
    scrapeTargetWith client target source = scrapeTarget target source := by
  by_cases h : source ∈ registered
  · rw [mem_registered] at h
    rcases h with h | h | h <;> subst h
    · rw [scrapeTarget_social]; rfl
    · rw [scrapeTarget_records]; rfl
    · rw [scrapeTarget_forums]; rfl
  · rw [scrapeTarget_default _ _ h]
    simp only [registered, List.mem_cons, List.mem_singleton, List.mem_nil_iff, or_false,
      not_or] at h
    obtain ⟨h1, h2, h3⟩ := h
    simp [scrapeTargetWith, h1, h2, h3, GoMap.make, GoMap.set, GoMap.setEntries, unknownSource]

theorem mainTraced_short (args : List String) (now : Time) (h : args.length < 3) :
    mainTraced args now = .ok [MainEvent.print (Output.text usage)] ∧
    main args now = .ok [Output.text usage] := by
  simp [mainTraced, main, h, usage]

theorem mainTraced_of_ok (prog target source : String) (rest : List String) (now : Time)
    (p : GoMap) (h : scrapeTarget target source = .ok p) :
    mainTraced (prog :: target :: source :: rest) now
      = .ok [MainEvent.call target source,
          MainEvent.print (Output.json ⟨source, p, now.FormatRFC3339⟩)] := by
  simp [mainTraced, h]
  rfl

theorem mainTraced_printed (args : List String) (now : Time) :
    (mainTraced args now).map (fun es => es.filterMap MainEvent.printed) = main args now := by
  by_cases h : args.length < 3
  · obtain ⟨h1, h2⟩ := mainTraced_short args now h
    rw [h1, h2]; rfl
  · match args, h with
    | prog :: target :: source :: rest, _ =>
      obtain ⟨p, hp, -⟩ := scrapeTarget_ok target source
      rw [mainTraced_of_ok prog target source rest now p hp,
        main_of_ok prog target source rest now p hp]
      rfl
    | [], h => exact absurd (by simp) h
    | [_], h => exact absurd (by simp) h
    | [_, _], h => exact absurd (by simp) h

theorem ne_append_of_length_pos (t s : String) (h : 0 < s.length) : t ≠ t ++ s := by
  intro e
  have hl := congrArg String.length e
  rw [String.length_append] at hl
  omega

theorem append_ne_of_length_ne (t a b : String) (h : a.length ≠ b.length) :
    t ++ a ≠ t ++ b := by
  intro e
  have hl := congrArg String.length e
  rw [String.length_append, String.length_append] at hl
  omega

theorem usernames_nodup (t : String) : [t, t ++ "123", t ++ "_official"].Nodup := by
  have h1 : t ≠ t ++ "123" := ne_append_of_length_pos t "123" (by decide)
  have h2 : t ≠ t ++ "_official" := ne_append_of_length_pos t "_official" (by decide)
  have h3 : t ++ "123" ≠ t ++ "_official" := append_ne_of_length_ne t _ _ (by decide)
  simp [h1, h2, h3]

theorem World.mapAt_after (h : List Obj) (cs : List Call) (o : Obj) (pre : List Obj)
    (m : GoMap) (rest : List Obj) :
    World.mapAt { heap := h ++ o :: (pre ++ Obj.map m :: rest), calls := cs }
      (h.length + 1 + pre.length) = some m := by
  have e := getElem?_append_add h (o :: (pre ++ Obj.map m :: rest)) (1 + pre.length)
  have e3 : (pre ++ Obj.map m :: rest)[pre.length]? = some (Obj.map m) := by
    rw [List.getElem?_append_right (Nat.le_refl _)]
    simp
  have e2 : (o :: (pre ++ Obj.map m :: rest))[1 + pre.length]? = some (Obj.map m) := by
    rw [Nat.add_comm, List.getElem?_cons_succ, e3]
  rw [← Nat.add_assoc] at e
  simp [World.mapAt, e, e2]

theorem scrapeTargetIn_run (w : World) (target source : String) :
    ∃ (m : GoMap) (pre : List Obj) (cs : List Call),
      scrapeTarget target source = .ok m ∧
      pre.filter Obj.isClient = [] ∧
      ((source ∈ registered ∧ ∃ name, cs = [Call.mk name w.heap.length target]) ∨
        (source ∉ registered ∧ cs = [])) ∧
      scrapeTargetIn w target source
        = .ok (w.heap.length + 1 + pre.length,
            { heap := w.heap ++ Obj.client newClient :: (pre ++ [Obj.map m]),
              calls := w.calls ++ cs }) := by
  by_cases h : source ∈ registered
  · have h0 := h
    rw [mem_registered] at h
    rcases h with h | h | h <;> subst h
    · exact ⟨_, [Obj.map GoMap.make], _, scrapeTarget_social target, rfl,
        Or.inl ⟨h0, _, rfl⟩, scrapeTargetIn_social w target⟩
    · exact ⟨_, [Obj.map GoMap.make], _, scrapeTarget_records target, rfl,
        Or.inl ⟨h0, _, rfl⟩, scrapeTargetIn_records w target⟩
    · exact ⟨_, [Obj.map GoMap.make], _, scrapeTarget_forums target, rfl,
        Or.inl ⟨h0, _, rfl⟩, scrapeTargetIn_forums w target⟩
  · refine ⟨_, [], [], scrapeTarget_default target source h, rfl, Or.inr ⟨h, rfl⟩, ?_⟩
    rw [scrapeTargetIn_default w target source h]
    simp

theorem runCalls_ok (earlier : List (String × String)) (w : World) :
    ∃ v, runCalls w earlier = .ok v := by
  induction earlier generalizing w with
  | nil => exact ⟨w, rfl⟩
  | cons c rest ih =>
    obtain ⟨m, pre, cs, -, -, -, h⟩ := scrapeTargetIn_run w c.1 c.2
    obtain ⟨v, hv⟩ := ih (World.mk (w.heap ++ Obj.client newClient :: (pre ++ [Obj.map m]))
      (w.calls ++ cs))
    exact ⟨v, by simp only [runCalls, h, hv]⟩

theorem digitChar_mod (n : Nat) : Nat.digitChar (n % 10) = digit n := by
  have h : ∀ m, m < 10 → Nat.digitChar m = Char.ofNat (48 + m) := by decide
  have := h (n % 10) (Nat.mod_lt _ (by decide))
  rw [this, digit]

theorem toDigitsCore_step (f n : Nat) (ds : List Char) :
    Nat.toDigitsCore 10 (f + 1) n ds =
      if n / 10 = 0 then Nat.digitChar (n % 10) :: ds
      else Nat.toDigitsCore 10 f (n / 10) (Nat.digitChar (n % 10) :: ds) := by
  simp [Nat.toDigitsCore]

theorem toDigitsCore_four (f n : Nat) (h : n < 10000) :
    Nat.toDigitsCore 10 (f + 1 + 1 + 1 + 1) n [] =
      if n < 10 then [digit n]
      else if n < 100 then [digit (n / 10), digit n]
      else if n < 1000 then [digit (n / 100), digit (n / 10), digit n]
      else [digit (n / 1000), digit (n / 100), digit (n / 10), digit n] := by
  rw [toDigitsCore_step, toDigitsCore_step, toDigitsCore_step, toDigitsCore_step]
  simp only [digitChar_mod, Nat.div_div_eq_div_mul, Nat.reduceMul]
  split_ifs <;> first | rfl | omega

theorem toDigits_small (n : Nat) (h : n < 10000) :
    Nat.toDigits 10 n =
      if n < 10 then [digit n]
      else if n < 100 then [digit (n / 10), digit n]
      else if n < 1000 then [digit (n / 100), digit (n / 10), digit n]
      else [digit (n / 1000), digit (n / 100), digit (n / 10), digit n] := by
  by_cases h3 : n < 3
  · interval_cases n <;> rfl
  · have e : n + 1 = (n - 3) + 1 + 1 + 1 + 1 := by omega
    rw [Nat.toDigits, e, toDigitsCore_four _ _ h]

theorem digit_of_div_eq_zero (n : Nat) (h : n = 0) : digit n = '0' := by
  subst h; rfl

theorem appendInt_natCast (n width : Nat) :
    (appendInt (n : Int) width).data
      = List.replicate (width - (Nat.toDigits 10 n).length) '0' ++ Nat.toDigits 10 n := by
  have hn : ¬ ((n : Int) < 0) := by omega
  simp [appendInt, hn, Nat.repr, String.length, List.asString]

theorem appendInt_two (n : Nat) (h : n < 100) : (appendInt (n : Int) 2).data = twoDigits n := by
  rw [appendInt_natCast, toDigits_small n (by omega), twoDigits]
  by_cases h1 : n < 10
  · have : digit (n / 10) = '0' := digit_of_div_eq_zero _ (by omega)
    simp [h1, this, List.replicate]
  · simp [h1, h]

theorem appendInt_four (n : Nat) (h : n < 10000) :
    (appendInt (n : Int) 4).data = fourDigits n := by
  rw [appendInt_natCast, toDigits_small n h, fourDigits]
  by_cases h1 : n < 10
  · have a : digit (n / 10) = '0' := digit_of_div_eq_zero _ (by omega)
    have b : digit (n / 100) = '0' := digit_of_div_eq_zero _ (by omega)
    have c : digit (n / 1000) = '0' := digit_of_div_eq_zero _ (by omega)
    simp [h1, a, b, c, List.replicate]
  · by_cases h2 : n < 100
    · have b : digit (n / 100) = '0' := digit_of_div_eq_zero _ (by omega)
      have c : digit (n / 1000) = '0' := digit_of_div_eq_zero _ (by omega)
      simp [h1, h2, b, c, List.replicate]
    · by_cases h3 : n < 1000
      · have c : digit (n / 1000) = '0' := digit_of_div_eq_zero _ (by omega)
        simp [h1, h2, h3, c, List.replicate]
      · simp [h1, h2, h3]

theorem appendInt_int_two (x : Int) (n : Nat) (hx : x = (n : Int)) (h : n < 100) :
    (appendInt x 2).data = twoDigits n := by
  subst hx; exact appendInt_two n h

theorem formatZone_data (offset : Int) (h60 : offset % 60 = 0) (hb : offset.natAbs < 86400) :
    (formatZone offset).data = rfc3339Offset offset := by
  unfold formatZone rfc3339Offset
  by_cases h0 : offset = 0
  · simp [h0]
  · obtain ⟨n, rfl | rfl⟩ := Int.eq_nat_or_neg offset
    · have hz : ¬ (Int.tdiv (n : Int) 60 < 0) := by
        rw [show (60 : Int) = ((60 : Nat) : Int) from rfl, ← Int.ofNat_tdiv]; omega
      have hn : ¬ ((n : Int) < 0) := by omega
      have ha : (Int.tdiv (n : Int) 60).natAbs = n / 60 := by
        rw [show (60 : Int) = ((60 : Nat) : Int) from rfl, ← Int.ofNat_tdiv]; rfl
      have hb2 : n < 86400 := by simpa using hb
      simp only [h0, hz, hn, if_false, ha, String.data_append, Int.natAbs_ofNat]
      rw [appendInt_int_two _ (n / 3600) (by omega) (by omega),
        appendInt_int_two _ (n / 60 % 60) (by omega) (by omega)]
      rfl
    · have hb2 : n < 86400 := by simpa using hb
      have hn0 : 60 ≤ n := by omega
      have ht : Int.tdiv (-(n : Int)) 60 = -((n / 60 : Nat) : Int) := by
        rw [Int.neg_tdiv, show (60 : Int) = ((60 : Nat) : Int) from rfl, ← Int.ofNat_tdiv]
      have hz : Int.tdiv (-(n : Int)) 60 < 0 := by rw [ht]; omega
      have hn : -(n : Int) < 0 := by omega
      have ha : (Int.tdiv (-(n : Int)) 60).natAbs = n / 60 := by
        rw [ht, Int.natAbs_neg, Int.natAbs_ofNat]
      simp only [h0, hz, hn, if_false, if_true, ha, String.data_append, Int.natAbs_neg,
        Int.natAbs_ofNat]
      rw [appendInt_int_two _ (n / 3600) (by omega) (by omega),
        appendInt_int_two _ (n / 60 % 60) (by omega) (by omega)]
      rfl

theorem FormatRFC3339_eq (t : Time) (h : t.valid) : t.FormatRFC3339 = rfc3339 t := by
  obtain ⟨hy0, hy1, -, hmo, -, hd, hh, hmi, hs, ho1, ho2⟩ := h
  apply String.ext
  obtain ⟨y, hy⟩ := Int.eq_ofNat_of_zero_le hy0
  have hy4 : (appendInt t.Year 4).data = fourDigits t.Year.toNat := by
    rw [hy]; rw [hy] at hy1
    simpa using appendInt_four y (by omega)
  simp only [Time.FormatRFC3339, rfc3339, String.data_append, hy4,
    appendInt_two t.Month (by omega), appendInt_two t.Day (by omega),
    appendInt_two t.Hour (by omega), appendInt_two t.Minute (by omega),
    appendInt_two t.Second (by omega), formatZone_data t.Offset ho1 ho2]
  simp


/-! ## Claims -/

/-- C1: for every target (the empty string included) and every category other
than the three registered ones, `scrapeTarget` returns exactly the one-entry
map with key `error` and value `Unknown source`: that key is present with that
value, no other key is present, and the map has one entry. -/
theorem scrapeTarget_unknown_exact (target category : String)
    (h1 : category ≠ "social_platforms") (h2 : category ≠ "public_records")
    (h3 : category ≠ "forums") :
    ∃ p, scrapeTarget target category = .ok p ∧
      p = .mk [("error", .str "Unknown source")] ∧
      p.get "error" = some (.str "Unknown source") ∧
      (∀ k, k ≠ "error" → p.get k = none) ∧
      p.keys = ["error"] ∧ p.len = 1 := by
  have hn : category ∉ registered := by
    rw [mem_registered]; simp [h1, h2, h3]
  refine ⟨unknownSource, scrapeTarget_default target category hn, rfl, rfl, ?_, rfl, rfl⟩
  intro k hk
  rw [unknownSource_get, if_neg hk]

/-- Witness for C1 at the empty target and the category `nonexistent`. -/
theorem scrapeTarget_unknown_exact_witness :
    ∃ p, scrapeTarget "" "nonexistent" = .ok p ∧
      p = .mk [("error", .str "Unknown source")] ∧
      p.get "error" = some (.str "Unknown source") ∧
      (∀ k, k ≠ "error" → p.get k = none) ∧
      p.keys = ["error"] ∧ p.len = 1 :=
  scrapeTarget_unknown_exact "" "nonexistent" (by decide) (by decide) (by decide)

/-- C2: for every target and every registered category, `scrapeTarget` returns
a payload without the key `error` in which every required key of that
category is present. -/
theorem scrapeTarget_registered_keys (target category : String)
    (h : category ∈ registered) :
    ∃ p, scrapeTarget target category = .ok p ∧
      p.has "error" = false ∧ ∀ k ∈ requiredKeys category, p.has k = true := by
  rw [mem_registered] at h
  rcases h with h | h | h <;> subst h
  · refine ⟨_, scrapeTarget_social target, rfl, ?_⟩
    intro k hk
    simp only [requiredKeys, if_true, List.mem_cons, List.mem_singleton, List.mem_nil_iff,
      or_false] at hk
    rcases hk with hk | hk | hk <;> subst hk <;> rfl
  · refine ⟨_, scrapeTarget_records target, rfl, ?_⟩
    intro k hk
    have hk2 : k ∈ ["records_found", "locations", "associated_entities"] := hk
    simp only [List.mem_cons, List.mem_singleton, List.mem_nil_iff, or_false] at hk2
    rcases hk2 with hk | hk | hk <;> subst hk <;> rfl
  · refine ⟨_, scrapeTarget_forums target, rfl, ?_⟩
    intro k hk
    have hk2 : k ∈ ["forums_found", "posts", "topics"] := hk
    simp only [List.mem_cons, List.mem_singleton, List.mem_nil_iff, or_false] at hk2
    rcases hk2 with hk | hk | hk <;> subst hk <;> rfl

/-- Witness for C2 at target `bob` and category `public_records`. -/
theorem scrapeTarget_registered_keys_witness :
    "public_records" ∈ registered ∧
    ∃ p, scrapeTarget "bob" "public_records" = .ok p ∧
      p.has "error" = false ∧ ∀ k ∈ requiredKeys "public_records", p.has k = true :=
  ⟨by decide, scrapeTarget_registered_keys "bob" "public_records" (by decide)⟩

/-- C3: for every target `t`, `scrapeTarget t "social_platforms"` returns a
payload with `profiles_found` 3, `activity_level` `moderate` and `usernames`
the sequence `t`, `t ++ "123"`, `t ++ "_official"`; for `alice` these are
`alice`, `alice123`, `alice_official`. -/
theorem scrapeTarget_social_payload (t : String) :
    (∃ p, scrapeTarget t "social_platforms" = .ok p ∧
      p.get "profiles_found" = some (.int 3) ∧
      p.get "activity_level" = some (.str "moderate") ∧
      p.get "usernames" = some (.strs [t, t ++ "123", t ++ "_official"])) ∧
    (∃ q, scrapeTarget "alice" "social_platforms" = .ok q ∧
      q.get "usernames" = some (.strs ["alice", "alice123", "alice_official"])) :=
  ⟨⟨_, scrapeTarget_social t, rfl, rfl, rfl⟩, ⟨_, scrapeTarget_social "alice", rfl⟩⟩

/-- C4: for every target, `scrapeTarget target "public_records"` returns a
payload with `records_found` 2, a `locations` sequence of exactly two entries
and an `associated_entities` sequence of exactly two entries. -/
theorem scrapeTarget_records_payload (target : String) :
    ∃ p, scrapeTarget target "public_records" = .ok p ∧
      p.get "records_found" = some (.int 2) ∧
      (∃ ls, p.get "locations" = some (.strs ls) ∧ ls.length = 2) ∧
      (∃ es, p.get "associated_entities" = some (.strs es) ∧ es.length = 2) :=
  ⟨_, scrapeTarget_records target, rfl, ⟨_, rfl, rfl⟩, ⟨_, rfl, rfl⟩⟩

/-- C5: for every target, `scrapeTarget target "forums"` returns a payload with
`forums_found` 5, `posts` 47 and a `topics` sequence of exactly three tags. -/
theorem scrapeTarget_forums_payload (target : String) :
    ∃ p, scrapeTarget target "forums" = .ok p ∧
      p.get "forums_found" = some (.int 5) ∧
      p.get "posts" = some (.int 47) ∧
      (∃ ts, p.get "topics" = some (.strs ts) ∧ ts.length = 3) :=
  ⟨_, scrapeTarget_forums target, rfl, rfl, ⟨_, rfl, rfl⟩⟩

/-- C6: for every target and each registered category, the payload returned by
`scrapeTarget` is the payload of that category's strategy function called with
the same target (and any client), unchanged. -/
theorem scrapeTarget_verbatim (target : String) (client : Client) :
    scrapeTarget target "social_platforms" = .ok (scrapeSocialPlatforms client target) ∧
    scrapeTarget target "public_records" = .ok (scrapePublicRecords client target) ∧
    scrapeTarget target "forums" = .ok (scrapeForums client target) :=
  ⟨scrapeTarget_social target, scrapeTarget_records target, scrapeTarget_forums target⟩

/-- C7: category matching is a case-sensitive exact match: a category that is
not a registered key but differs from one only in letter case, or is one with
extra characters, is treated as unregistered and yields the payload with the
single entry `error` = `Unknown source`, for every target. -/
theorem scrapeTarget_case_sensitive_exact (target category key : String)
    (hk : key ∈ registered) (hne : category ≠ key)
    (hv : sameIgnoringCase category key ∨ withExtraCharacters category key) :
    category ∉ registered ∧
    scrapeTarget target category = .ok (.mk [("error", .str "Unknown source")]) :=
  have h := registered_ne_variant category key hk hne hv
  ⟨h, scrapeTarget_default target category h⟩

/-- Witness for C7 at the categories `Forums`, `FORUMS`, `forums ` and
`social_platforms` followed by a newline. -/
theorem scrapeTarget_case_sensitive_exact_witness :
    scrapeTarget "carol" "Forums" = .ok (.mk [("error", .str "Unknown source")]) ∧
    scrapeTarget "carol" "FORUMS" = .ok (.mk [("error", .str "Unknown source")]) ∧
    scrapeTarget "carol" "forums " = .ok (.mk [("error", .str "Unknown source")]) ∧
    scrapeTarget "carol" "social_platforms\n" = .ok (.mk [("error", .str "Unknown source")]) :=
  ⟨(scrapeTarget_case_sensitive_exact "carol" "Forums" "forums" (by decide) (by decide)
      (Or.inl (by unfold sameIgnoringCase; decide))).2,
   (scrapeTarget_case_sensitive_exact "carol" "FORUMS" "forums" (by decide) (by decide)
      (Or.inl (by unfold sameIgnoringCase; decide))).2,
   (scrapeTarget_case_sensitive_exact "carol" "forums " "forums" (by decide) (by decide)
      (Or.inr (by unfold withExtraCharacters; decide))).2,
   (scrapeTarget_case_sensitive_exact "carol" "social_platforms\n" "social_platforms"
      (by decide) (by decide) (Or.inr (by unfold withExtraCharacters; decide))).2⟩

/-- C8: `scrapeTarget` is deterministic and stateless.  Run in any two states
of the process, and in the state left by any sequence of earlier calls, a call
with the same inputs returns, and the maps returned are equal (same entries,
same values, same order) and are the map `scrapeTarget` gives `main`.  A call
only adds objects to the heap and calls to the record, so what earlier calls
returned is left as it was: when the same call is made again right after, it
returns an equal map at another address and the map of the first call still
reads the same. -/
theorem scrapeTarget_stateless (w1 w2 : World) (earlier : List (String × String))
    (target category : String) :
    ∃ p1 v1 p2 v2 p3 v3 m,
      scrapeTargetIn w1 target category = .ok (p1, v1) ∧ v1.mapAt p1 = some m ∧
      scrapeTargetIn w2 target category = .ok (p2, v2) ∧ v2.mapAt p2 = some m ∧
      scrapeTarget target category = .ok m ∧
      (∃ w p v, runCalls World.init earlier = .ok w ∧
        scrapeTargetIn w target category = .ok (p, v) ∧ v.mapAt p = some m) ∧
      (∃ added, v1.heap = w1.heap ++ added) ∧ w1.heap.length ≤ p1 ∧
      v1.calls.take w1.calls.length = w1.calls ∧
      scrapeTargetIn v1 target category = .ok (p3, v3) ∧ v3.mapAt p3 = some m ∧
      p3 ≠ p1 ∧ v3.mapAt p1 = some m := by
  obtain ⟨m, pre, cs, hm, -, -, h1⟩ := scrapeTargetIn_run w1 target category
  obtain ⟨m2, pre2, cs2, hm2, -, -, h2⟩ := scrapeTargetIn_run w2 target category
  obtain ⟨m3, pre3, cs3, hm3, -, -, h3⟩ := scrapeTargetIn_run
    { heap := w1.heap ++ Obj.client newClient :: (pre ++ [Obj.map m]),
      calls := w1.calls ++ cs } target category
  obtain ⟨w, hw⟩ := runCalls_ok earlier World.init
  obtain ⟨m4, pre4, cs4, hm4, -, -, h4⟩ := scrapeTargetIn_run w target category
  rw [hm] at hm2 hm3 hm4
  cases hm2; cases hm3; cases hm4
  refine ⟨_, _, _, _, _, _, m, h1, World.mapAt_after _ _ _ _ _ _, h2,
    World.mapAt_after _ _ _ _ _ _, hm, ⟨w, _, _, hw, h4, World.mapAt_after _ _ _ _ _ _⟩,
    ⟨_, rfl⟩, by omega, by simp, h3, World.mapAt_after _ _ _ _ _ _, ?_, ?_⟩
  · simp; omega
  · have := World.mapAt_after w1.heap ((w1.calls ++ cs) ++ cs3) (Obj.client newClient) pre m
      (Obj.client newClient :: (pre3 ++ [Obj.map m]))
    simpa using this

/-- C9: for every target and category, registered or not, `scrapeTarget`
returns without a panic a payload that is not the nil map and is not empty;
the payload has the key `error` exactly when the category is unregistered; and
the envelope `main` prints for these arguments carries that payload as its
data, so its data is never null. -/
theorem scrapeTarget_total_nonempty (target category : String) :
    ∃ p, scrapeTarget target category = .ok p ∧ p ≠ GoMap.nil ∧ 0 < p.len ∧
      (p.has "error" = true ↔ category ∉ registered) ∧
      ∀ (prog : String) (rest : List String) (now : Time),
        ∃ r, main (prog :: target :: category :: rest) now = .ok [Output.json r] ∧
          r.Data = p ∧ r.Data ≠ GoMap.nil := by
  obtain ⟨p, hp, hnil, hlen, herr⟩ := scrapeTarget_ok target category
  exact ⟨p, hp, hnil, hlen, herr, fun prog rest now =>
    ⟨_, main_of_ok prog target category rest now p hp, rfl, hnil⟩⟩

/-- C10: for every invocation with a target and a category at a given current
time, `main` prints one envelope whose marshalled members are exactly
`source`, `data`, `timestamp`; its source is the category argument unchanged
(registered or not), its data is what `scrapeTarget target category` returns,
and its timestamp is the rendering of the current time by `Format` with the
RFC 3339 layout, which for every time RFC 3339 can express is the RFC 3339
`date-time` of that time. -/
theorem main_envelope (prog target category : String) (rest : List String) (now : Time) :
    (∃ r, main (prog :: target :: category :: rest) now = .ok [Output.json r] ∧
      r.Source = category ∧
      scrapeTarget target category = .ok r.Data ∧
      r.Timestamp = now.FormatRFC3339 ∧
      (now.valid → r.Timestamp = rfc3339 now) ∧
      r.jsonFields.map Prod.fst = ["source", "data", "timestamp"] ∧
      r.jsonFields = [("source", .str category), ("data", .obj r.Data),
        ("timestamp", .str now.FormatRFC3339)]) ∧
    main ["scraper", "dave", "nonexistent"] ⟨2024, 1, 2, 3, 4, 5, 0⟩
      = .ok [Output.json ⟨"nonexistent", .mk [("error", .str "Unknown source")],
          "2024-01-02T03:04:05Z"⟩] := by
  obtain ⟨p, hp, -⟩ := scrapeTarget_ok target category
  exact ⟨⟨_, main_of_ok prog target category rest now p hp, rfl, hp, rfl,
    fun hv => FormatRFC3339_eq now hv, rfl, rfl⟩, by decide⟩

/-- Witness for C10: a run east of UTC and a run west of UTC, with the
timestamps written out. -/
theorem main_envelope_witness :
    Time.valid ⟨2026, 11, 2, 13, 14, 15, 19800⟩ ∧
    Time.valid ⟨1999, 12, 31, 23, 59, 59, -12600⟩ ∧
    (∃ r, main ["scraper", "alice", "forums"] ⟨2026, 11, 2, 13, 14, 15, 19800⟩
        = .ok [Output.json r] ∧ r.Source = "forums" ∧
      r.Timestamp = "2026-11-02T13:14:15+05:30") ∧
    (∃ r, main ["scraper", "bob", "nonexistent"] ⟨1999, 12, 31, 23, 59, 59, -12600⟩
        = .ok [Output.json r] ∧ r.Source = "nonexistent" ∧
      r.Timestamp = "1999-12-31T23:59:59-03:30") := by
  have v1 : Time.valid ⟨2026, 11, 2, 13, 14, 15, 19800⟩ := by unfold Time.valid; decide
  have v2 : Time.valid ⟨1999, 12, 31, 23, 59, 59, -12600⟩ := by unfold Time.valid; decide
  obtain ⟨r1, m1, s1, -, -, t1, -⟩ :=
    (main_envelope "scraper" "alice" "forums" [] ⟨2026, 11, 2, 13, 14, 15, 19800⟩).1
  obtain ⟨r2, m2, s2, -, -, t2, -⟩ :=
    (main_envelope "scraper" "bob" "nonexistent" [] ⟨1999, 12, 31, 23, 59, 59, -12600⟩).1
  exact ⟨v1, v2, ⟨r1, m1, s1, (t1 v1).trans (by decide)⟩,
    ⟨r2, m2, s2, (t2 v2).trans (by decide)⟩⟩

/-- C11: when the argument vector (program name included) has fewer than three
entries, `main` prints the usage line and nothing else, makes no call of
`scrapeTarget` and prints no envelope; when it has at least three, `main`
prints exactly one envelope. -/
theorem main_usage_when_argument_missing (args : List String) (now : Time) :
    (args.length < 3 →
      ∃ events outs, mainTraced args now = .ok events ∧ main args now = .ok outs ∧
        outs = [Output.text "Usage: scraper <target> <source>"] ∧
        events.filter MainEvent.isCall = [] ∧
        outs.filter Output.isEnvelope = []) ∧
    (3 ≤ args.length →
      ∃ outs r, main args now = .ok outs ∧ outs = [Output.json r] ∧
        (outs.filter Output.isEnvelope).length = 1) := by
  constructor
  · intro h
    obtain ⟨h1, h2⟩ := mainTraced_short args now h
    exact ⟨_, _, h1, h2, rfl, rfl, rfl⟩
  · intro h
    match args, h with
    | prog :: target :: source :: rest, _ =>
      obtain ⟨p, hp, -⟩ := scrapeTarget_ok target source
      exact ⟨_, _, main_of_ok prog target source rest now p hp, rfl, rfl⟩
    | [], h => exact absurd h (by simp)
    | [_], h => exact absurd h (by simp)
    | [_, _], h => exact absurd h (by simp)

/-- Witness for C11: one run without the source argument, one with both. -/
theorem main_usage_when_argument_missing_witness :
    (∃ events outs, mainTraced ["scraper", "alice"] ⟨2024, 1, 2, 3, 4, 5, 0⟩ = .ok events ∧
        main ["scraper", "alice"] ⟨2024, 1, 2, 3, 4, 5, 0⟩ = .ok outs ∧
        outs = [Output.text "Usage: scraper <target> <source>"] ∧
        events.filter MainEvent.isCall = [] ∧
        outs.filter Output.isEnvelope = []) ∧
    (∃ outs r, main ["scraper", "alice", "forums"] ⟨2024, 1, 2, 3, 4, 5, 0⟩ = .ok outs ∧
        outs = [Output.json r] ∧ (outs.filter Output.isEnvelope).length = 1) :=
  ⟨(main_usage_when_argument_missing ["scraper", "alice"] ⟨2024, 1, 2, 3, 4, 5, 0⟩).1
      (by decide),
   (main_usage_when_argument_missing ["scraper", "alice", "forums"]
      ⟨2024, 1, 2, 3, 4, 5, 0⟩).2 (by decide)⟩

/-- C12, as stated, fails: with three positional arguments (a count that is not
two) `main` calls `scrapeTarget` on the first two and prints an envelope, not
the usage line. -/
theorem main_extra_argument_counterexample :
    ["scraper", "alice", "forums", "extra"].length - 1 ≠ 2 ∧
    main ["scraper", "alice", "forums", "extra"] ⟨2024, 1, 2, 3, 4, 5, 0⟩
      = .ok [Output.json ⟨"forums",
          .mk [("forums_found", .int 5), ("posts", .int 47),
            ("topics", .strs ["tech", "gaming", "crypto"])],
          "2024-01-02T03:04:05Z"⟩] ∧
    main ["scraper", "alice", "forums", "extra"] ⟨2024, 1, 2, 3, 4, 5, 0⟩
      ≠ .ok [Output.text "Usage: scraper <target> <source>"] ∧
    ∃ events, mainTraced ["scraper", "alice", "forums", "extra"] ⟨2024, 1, 2, 3, 4, 5, 0⟩
        = .ok events ∧ events.filter MainEvent.isCall = [MainEvent.call "alice" "forums"] := by
  exact ⟨by decide, by decide, by decide, _,
    mainTraced_of_ok "scraper" "alice" "forums" ["extra"] _ _ (scrapeTarget_forums "alice"),
    rfl⟩

/-- C12, amended: for every invocation with fewer than two positional
arguments `main` prints the usage line before any call of `scrapeTarget` and
prints no envelope; an invocation with more than two positional arguments is
handled as the invocation with its first two, the others being ignored. -/
theorem main_wrong_argument_count (args : List String) (prog target source : String)
    (rest : List String) (now : Time) :
    (args.length - 1 < 2 →
      ∃ events outs, mainTraced args now = .ok events ∧ main args now = .ok outs ∧
        outs = [Output.text "Usage: scraper <target> <source>"] ∧
        events.filter MainEvent.isCall = [] ∧
        outs.filter Output.isEnvelope = []) ∧
    main (prog :: target :: source :: rest) now = main [prog, target, source] now ∧
    mainTraced (prog :: target :: source :: rest) now
      = mainTraced [prog, target, source] now := by
  refine ⟨?_, ?_, ?_⟩
  · intro h
    obtain ⟨h1, h2⟩ := mainTraced_short args now (by omega)
    exact ⟨_, _, h1, h2, rfl, rfl, rfl⟩
  · obtain ⟨p, hp, -⟩ := scrapeTarget_ok target source
    rw [main_of_ok prog target source rest now p hp, main_of_ok prog target source [] now p hp]
  · obtain ⟨p, hp, -⟩ := scrapeTarget_ok target source
    rw [mainTraced_of_ok prog target source rest now p hp,
      mainTraced_of_ok prog target source [] now p hp]

/-- Witness for amended C12: a run with one positional argument, and a run
with three compared with the run on its first two. -/
theorem main_wrong_argument_count_witness :
    (∃ events outs, mainTraced ["scraper", "alice"] ⟨2024, 1, 2, 3, 4, 5, 0⟩ = .ok events ∧
        main ["scraper", "alice"] ⟨2024, 1, 2, 3, 4, 5, 0⟩ = .ok outs ∧
        outs = [Output.text "Usage: scraper <target> <source>"] ∧
        events.filter MainEvent.isCall = [] ∧
        outs.filter Output.isEnvelope = []) ∧
    main ["scraper", "alice", "forums", "extra"] ⟨2024, 1, 2, 3, 4, 5, 0⟩
      = main ["scraper", "alice", "forums"] ⟨2024, 1, 2, 3, 4, 5, 0⟩ :=
  ⟨(main_wrong_argument_count ["scraper", "alice"] "scraper" "alice" "forums" ["extra"]
      ⟨2024, 1, 2, 3, 4, 5, 0⟩).1 (by decide),
   (main_wrong_argument_count ["scraper", "alice"] "scraper" "alice" "forums" ["extra"]
      ⟨2024, 1, 2, 3, 4, 5, 0⟩).2.1⟩

/-- C13, as stated, fails: the empty target is accepted; with a registered
category it produces the normal payload, without the key `error`, and `main`
prints the envelope. -/
theorem empty_target_counterexample :
    scrapeTarget "" "social_platforms"
      = .ok (.mk [("platform", .str "multiple"), ("profiles_found", .int 3),
          ("usernames", .strs ["", "123", "_official"]),
          ("activity_level", .str "moderate")]) ∧
    (∃ p, scrapeTarget "" "social_platforms" = .ok p ∧ p.has "error" = false) ∧
    main ["scraper", "", "forums"] ⟨2024, 1, 2, 3, 4, 5, 0⟩
      = .ok [Output.json ⟨"forums",
          .mk [("forums_found", .int 5), ("posts", .int 47),
            ("topics", .strs ["tech", "gaming", "crypto"])],
          "2024-01-02T03:04:05Z"⟩] :=
  ⟨by decide, ⟨_, scrapeTarget_social "", rfl⟩, by decide⟩

/-- C13, amended: the target is not validated at all.  For every target and
category, `scrapeTarget` returns a payload with the same keys as for the empty
target, with the key `error` exactly when the category is unregistered, and
`main` prints an envelope for the empty target as for any other. -/
theorem target_not_validated (target category : String) :
    ∃ p q, scrapeTarget target category = .ok p ∧ scrapeTarget "" category = .ok q ∧
      p.keys = q.keys ∧
      (p.has "error" = true ↔ category ∉ registered) ∧
      (q.has "error" = true ↔ category ∉ registered) ∧
      ∀ (prog : String) (now : Time),
        main [prog, target, category] now
          = .ok [Output.json ⟨category, p, now.FormatRFC3339⟩] ∧
        main [prog, "", category] now
          = .ok [Output.json ⟨category, q, now.FormatRFC3339⟩] := by
  obtain ⟨p, hp, -, -, hpe⟩ := scrapeTarget_ok target category
  obtain ⟨q, hq, -, -, hqe⟩ := scrapeTarget_ok "" category
  refine ⟨p, q, hp, hq, ?_, hpe, hqe, fun prog now =>
    ⟨main_of_ok prog target category [] now p hp, main_of_ok prog "" category [] now q hq⟩⟩
  by_cases h : category ∈ registered
  · rw [mem_registered] at h
    rcases h with h | h | h <;> subst h
    · rw [scrapeTarget_social] at hp hq
      cases hp; cases hq; rfl
    · rw [scrapeTarget_records] at hp hq
      cases hp; cases hq; rfl
    · rw [scrapeTarget_forums] at hp hq
      cases hp; cases hq; rfl
  · rw [scrapeTarget_default _ _ h] at hp hq
    cases hp; cases hq; rfl

/-- C15: the `public_records` and `forums` results are the same for all
targets, and so is the result for an unregistered category; a category has
two targets with different results exactly when it is `social_platforms`. -/
theorem payload_target_dependence (t1 t2 category : String) :
    scrapeTarget t1 "public_records" = scrapeTarget t2 "public_records" ∧
    scrapeTarget t1 "forums" = scrapeTarget t2 "forums" ∧
    (category ∉ registered → scrapeTarget t1 category = scrapeTarget t2 category) ∧
    ((∃ a b, scrapeTarget a category ≠ scrapeTarget b category)
      ↔ category = "social_platforms") := by
  refine ⟨?_, ?_, ?_, ?_, ?_⟩
  · rw [scrapeTarget_records, scrapeTarget_records]; rfl
  · rw [scrapeTarget_forums, scrapeTarget_forums]; rfl
  · intro h
    rw [scrapeTarget_default _ _ h, scrapeTarget_default _ _ h]
  · rintro ⟨a, b, hab⟩
    by_contra hne
    apply hab
    by_cases h : category ∈ registered
    · rw [mem_registered] at h
      rcases h with h | h | h
      · exact absurd h hne
      · subst h; rw [scrapeTarget_records, scrapeTarget_records]; rfl
      · subst h; rw [scrapeTarget_forums, scrapeTarget_forums]; rfl
    · rw [scrapeTarget_default _ _ h, scrapeTarget_default _ _ h]
  · intro h
    subst h
    exact ⟨"a", "b", by decide⟩

/-- Witness for C15 at targets `alice`, `bob` and the category `nonexistent`. -/
theorem payload_target_dependence_witness :
    "nonexistent" ∉ registered ∧
    scrapeTarget "alice" "nonexistent" = scrapeTarget "bob" "nonexistent" :=
  ⟨by decide, (payload_target_dependence "alice" "bob" "nonexistent").2.2.1 (by decide)⟩

/-- C16: for every target, the empty string included, the usernames of the
`social_platforms` payload are pairwise distinct, each starts with the target,
and their number is the reported `profiles_found`, 3; in the `public_records`
payload the numbers of locations and of associated entities both are the
reported `records_found`, 2. -/
theorem payload_counts_consistent (t : String) :
    (∃ p us, scrapeTarget t "social_platforms" = .ok p ∧
      p.get "usernames" = some (.strs us) ∧
      us.Nodup ∧ (∀ u ∈ us, ∃ s, u = t ++ s) ∧
      p.get "profiles_found" = some (.int us.length) ∧ us.length = 3) ∧
    (∃ q ls es, scrapeTarget t "public_records" = .ok q ∧
      q.get "locations" = some (.strs ls) ∧
      q.get "associated_entities" = some (.strs es) ∧
      q.get "records_found" = some (.int ls.length) ∧
      q.get "records_found" = some (.int es.length) ∧
      ls.length = 2 ∧ es.length = 2) := by
  refine ⟨⟨_, _, scrapeTarget_social t, rfl, usernames_nodup t, ?_, rfl, rfl⟩,
    ⟨_, _, _, scrapeTarget_records t, rfl, rfl, rfl, rfl, rfl, rfl⟩⟩
  intro u hu
  simp only [List.mem_cons, List.mem_singleton, List.mem_nil_iff, or_false] at hu
  rcases hu with hu | hu | hu
  · exact ⟨"", by rw [hu, String.append_empty]⟩
  · exact ⟨"123", hu⟩
  · exact ⟨"_official", hu⟩

/-- C17: the `social_platforms` result is injective in the target: different
targets give different results (and different strategy payloads, whatever the
clients), and the target is the first entry of `usernames` of the payload. -/
theorem social_injective (t1 t2 : String) (h : t1 ≠ t2) :
    scrapeTarget t1 "social_platforms" ≠ scrapeTarget t2 "social_platforms" ∧
    (∀ c1 c2 : Client, scrapeSocialPlatforms c1 t1 ≠ scrapeSocialPlatforms c2 t2) ∧
    (∃ p, scrapeTarget t1 "social_platforms" = .ok p ∧ firstUsername p = some t1) ∧
    (∃ q, scrapeTarget t2 "social_platforms" = .ok q ∧ firstUsername q = some t2) := by
  have hs : ∀ c1 c2 : Client, scrapeSocialPlatforms c1 t1 ≠ scrapeSocialPlatforms c2 t2 := by
    intro c1 c2 e
    simp [scrapeSocialPlatforms] at e
    exact h e.1
  refine ⟨?_, hs, ⟨_, scrapeTarget_social t1, rfl⟩, ⟨_, scrapeTarget_social t2, rfl⟩⟩
  rw [scrapeTarget_social, scrapeTarget_social]
  intro e
  exact hs newClient newClient (Except.ok.inj e)

/-- Witness for C17 at the targets `alice` and `bob`. -/
theorem social_injective_witness :
    "alice" ≠ "bob" ∧
    scrapeTarget "alice" "social_platforms" ≠ scrapeTarget "bob" "social_platforms" ∧
    (∃ p, scrapeTarget "alice" "social_platforms" = .ok p ∧ firstUsername p = some "alice") :=
  ⟨by decide, (social_injective "alice" "bob" (by decide)).1,
    (social_injective "alice" "bob" (by decide)).2.2.1⟩

/-- C18: no strategy payload depends on the client: for every target and every
two clients each strategy function returns the same payload, so the body of
`scrapeTarget` run with either client returns what `scrapeTarget` returns. -/
theorem strategies_ignore_client (target source : String) (c1 c2 : Client) :
    scrapeSocialPlatforms c1 target = scrapeSocialPlatforms c2 target ∧
    scrapePublicRecords c1 target = scrapePublicRecords c2 target ∧
    scrapeForums c1 target = scrapeForums c2 target ∧
    scrapeTargetWith c1 target source = scrapeTargetWith c2 target source ∧
    scrapeTargetWith c1 target source = scrapeTarget target source ∧
    scrapeSocialPlatforms ⟨30 * Second⟩ "alice" = scrapeSocialPlatforms ⟨5 * Second⟩ "alice" :=
  ⟨rfl, rfl, rfl, rfl, scrapeTargetWith_eq c1 target source, rfl⟩

end Scraper
